import Mathlib

/-!
Verification of `src/rainmachine/rainmachine.py`, a command-line shell for a
backup/restore utility built on the cement application framework.  The file
embeds the declarations visible in the source (the argument table, the
configuration defaults, the configuration handler's try/except, and the main
`with` block) as Lean definitions, models the framework behaviour the source
delegates to (argument parsing, configuration merging) from the specification,
and proves the spec's claims about them.
-/

namespace RainMachine

/-- A value held in the application configuration or in the parsed arguments:
strings from the INI file or the command line, booleans from `store_true`
flags and from `defaults['rainmachine']['tbd'] = False`, and Python `None`
for flags that declare no default. -/
inductive ConfigValue where
  | str (s : String)
  | bool (b : Bool)
  | pyNone
deriving DecidableEq, Repr

/-- One INI section: an association list from option key to value. -/
abbrev ConfigSection := List (String × ConfigValue)

/-- The configuration mapping: section name to section contents. -/
abbrev Config := List (String × ConfigSection)

/-- Association-list lookup by key, the dict access of the Python source. -/
def alookup {β : Type} : List (String × β) → String → Option β
  | [], _ => Option.none
  | p :: t, k => if p.1 = k then some p.2 else alookup t k

/-- Read a key from a section of the configuration. -/
def configLookup (cfg : Config) (sect key : String) : Option ConfigValue :=
  match alookup cfg sect with
  | some entries => alookup entries key
  | Option.none => Option.none

/-- Update one key of a section, replacing an existing entry or appending. -/
def sectionSet (sec : ConfigSection) (key : String) (v : ConfigValue) : ConfigSection :=
  if (alookup sec key).isSome then
    sec.map (fun p => (p.1, if p.1 = key then v else p.2))
  else sec ++ [(key, v)]

/-- Update one key of one section of the configuration, creating the section
when it is absent. -/
def configSet (cfg : Config) (sect key : String) (v : ConfigValue) : Config :=
  if (alookup cfg sect).isSome then
    cfg.map (fun p => (p.1, if p.1 = sect then sectionSet p.2 key v else p.2))
  else cfg ++ [(sect, [(key, v)])]

/-- Modelled from the spec: `cement.utils.misc.init_defaults` (imported at
line 81 of the source, its body not part of this repository) builds a
configuration mapping each named section to an empty dict; duplicate section
names collapse as Python dict keys do. -/
def init_defaults (sections : List String) : Config :=
  sections.dedup.map (fun s => (s, []))

/-- The configuration defaults of lines 83 and 84 of the source:
`defaults = init_defaults('rainmachine', 'rainmachine')` followed by
`defaults['rainmachine']['tbd'] = False`. -/
def defaults : Config :=
  configSet (init_defaults ["rainmachine", "rainmachine"]) "rainmachine" "tbd"
    (ConfigValue.bool false)

/-- C7: at startup the configuration defaults hold the `rainmachine` section
with the placeholder key `tbd` bound to the boolean `False`, and nothing
else, before any configuration file or command-line value is applied. -/
theorem defaults_prepopulated :
    configLookup defaults "rainmachine" "tbd" = some (ConfigValue.bool false) ∧
    defaults = [("rainmachine", [("tbd", ConfigValue.bool false)])] := by
  constructor
  · decide
  · decide

/-- The argparse actions used by the source: `store`, `store_true`, and
`version`. -/
inductive ArgAction where
  | store
  | store_true
  | version
deriving DecidableEq, Repr

/-- One entry of the `arguments` list of `RainMachineBaseController.Meta`:
the option strings, the action, and the destination name. -/
structure ArgSpec where
  flags : List String
  action : ArgAction
  dest : Option String
deriving DecidableEq, Repr

/-- The argument table of lines 106 to 120 of the source. -/
def arguments : List ArgSpec :=
  [ ⟨["--host", "--rainmachine"], ArgAction.store, some "host"⟩,
    ⟨["-u", "--user"], ArgAction.store, some "user"⟩,
    ⟨["-p", "--password"], ArgAction.store, some "pass"⟩,
    ⟨["-b", "--backup"], ArgAction.store_true, some "backup"⟩,
    ⟨["-r", "--restore"], ArgAction.store_true, some "restore"⟩,
    ⟨["-f", "--file"], ArgAction.store, some "file"⟩,
    ⟨["-v", "--version"], ArgAction.version, Option.none⟩ ]

/-- Every option string the argument table declares. -/
def allFlags : List String :=
  ["--host", "--rainmachine", "-u", "--user", "-p", "--password", "-b", "--backup",
   "-r", "--restore", "-f", "--file", "-v", "--version"]

/-- The banner of lines 36 to 39 of the source, as a function of the version
and copyright strings.  Modelled from the spec: `__version__` and
`__copyright__` are imported from the package module, which is not among the
provided source files, so they stay abstract. -/
def BANNER (V C : String) : String :=
  "\nrainmachine v" ++ (V ++ ("\n" ++ (C ++ "\n")))

/-- The argument table entry recognising a given token, if any. -/
def findSpec (tok : String) : Option ArgSpec :=
  arguments.find? (fun a => decide (tok ∈ a.flags))

/-- Modelled from the spec: argparse initialises every `store` destination to
`None` (no flag declares a default) and every `store_true` destination to
`False`. -/
def initPargs : List (String × ConfigValue) :=
  arguments.filterMap (fun a => a.dest.map (fun d =>
    (d, if a.action = ArgAction.store_true then ConfigValue.bool false
        else ConfigValue.pyNone)))

/-- Assign a destination in the parsed-argument record. -/
def pargsSet (ps : List (String × ConfigValue)) (d : String) (v : ConfigValue) :
    List (String × ConfigValue) :=
  ps.map (fun p => (p.1, if p.1 = d then v else p.2))

/-- Whether a token begins with a dash, making argparse treat it as an
option rather than as the value of the preceding `store` option. -/
def dashPrefixed (s : String) : Bool :=
  match s.data with
  | [] => false
  | c :: _ => c = '-'

/-- The result of parsing the command line: a parsed-argument record, the
`version` action (print the banner and exit 0), or a parse error. -/
inductive ParseResult where
  | ok (pargs : List (String × ConfigValue))
  | exitVersion (banner : String)
  | error (msg : String)
deriving DecidableEq, Repr

/-- Modelled from the spec: argparse consumes the tokens left to right.  The
`pending` argument is the destination of a `store` option still waiting for
its value; a token beginning with a dash is never taken as a value.  An
unrecognised option is an error; `version` prints the banner and exits. -/
def parseLoop (V C : String) :
    List String → Option String → List (String × ConfigValue) → ParseResult
  | [], some _, _ => ParseResult.error "expected one argument"
  | [], Option.none, ps => ParseResult.ok ps
  | tok :: rest, some d, ps =>
    if dashPrefixed tok then ParseResult.error "expected one argument"
    else parseLoop V C rest Option.none (pargsSet ps d (ConfigValue.str tok))
  | tok :: rest, Option.none, ps =>
    match findSpec tok with
    | Option.none => ParseResult.error ("unrecognized arguments: " ++ tok)
    | some a =>
      match a.action with
      | ArgAction.version => ParseResult.exitVersion (BANNER V C)
      | ArgAction.store_true =>
        match a.dest with
        | some d => parseLoop V C rest Option.none (pargsSet ps d (ConfigValue.bool true))
        | Option.none => parseLoop V C rest Option.none ps
      | ArgAction.store => parseLoop V C rest a.dest ps

/-- Parse a full command line against the argument table. -/
def parseArgs (V C : String) (argv : List String) : ParseResult :=
  parseLoop V C argv Option.none initPargs

/-- The value a successful parse assigned to a destination. -/
def parsedValue (r : ParseResult) (d : String) : Option ConfigValue :=
  match r with
  | ParseResult.ok ps => alookup ps d
  | _ => Option.none

/-- Modelled from the spec: the `configparser` errors that the stdlib raises
when reading an absent setting — a missing section, or a missing option of an
existing section; the error message names the missing setting. -/
inductive CPError where
  | noSection (sect : String)
  | noOption (opt sect : String)
deriving DecidableEq, Repr

/-- Modelled from the spec: the message carried by a `configparser` error,
naming the missing section or the missing option and its section. -/
def cpErrorMsg : CPError → String
  | CPError.noSection s => "No section: " ++ s
  | CPError.noOption o s => "No option " ++ (o ++ (" in section: " ++ s))

/-- Modelled from the spec: `ConfigParserConfigHandler.get` (the superclass
call of line 94, not part of this repository) returns the stored value or
raises the `configparser` error for the missing section or option. -/
def rawGet (cfg : Config) (sect key : String) : Except CPError ConfigValue :=
  match alookup cfg sect with
  | Option.none => Except.error (CPError.noSection sect)
  | some entries =>
    match alookup entries key with
    | Option.none => Except.error (CPError.noOption key sect)
    | some v => Except.ok v

/-- What a configuration read through the custom handler does: return the
value, or log a fatal message and close the application with an exit code. -/
inductive GetOutcome where
  | ok (v : ConfigValue)
  | fatalExit (logMsg : String) (code : Nat)
deriving DecidableEq, Repr

/-- `RainMachineConfigHandler.get` (lines 92 to 97 of the source): call the
superclass `get`; on a `configparser` error, log
`Missing configuration setting: %s` at fatal level and `self.app.close(1)`,
which terminates the process with exit status 1. -/
def RainMachineConfigHandler_get (cfg : Config) (sect key : String) : GetOutcome :=
  match rawGet cfg sect key with
  | Except.ok v => GetOutcome.ok v
  | Except.error e =>
    GetOutcome.fatalExit ("Missing configuration setting: " ++ cpErrorMsg e) 1

/-- The possible outcomes of the superclass `get` call as seen by the
try/except of lines 93 to 97: a value, a `configparser` error, or an
exception of any other type. -/
inductive RawGetResult where
  | val (v : ConfigValue)
  | cpError (e : CPError)
  | otherError (msg : String)
deriving DecidableEq, Repr

/-- What `RainMachineConfigHandler.get` does with each outcome of the
superclass call: the handled result is the value, the fatal-log-and-exit
path, or an exception left to propagate to the caller. -/
inductive HandledResult where
  | ok (v : ConfigValue)
  | fatalExit (logMsg : String) (code : Nat)
  | raised (msg : String)
deriving DecidableEq, Repr

/-- The try/except structure of `RainMachineConfigHandler.get` (lines 92 to
97 of the source): only `configparser.Error` is caught; any other exception
is not handled and propagates. -/
def handleGet : RawGetResult → HandledResult
  | RawGetResult.val v => HandledResult.ok v
  | RawGetResult.cpError e =>
    HandledResult.fatalExit ("Missing configuration setting: " ++ cpErrorMsg e) 1
  | RawGetResult.otherError m => HandledResult.raised m

/-- The event that ends the blocking `app.run_forever()` wait of line 159:
one of the three caught exception types of line 160, or an exception of any
other type. -/
inductive IdleEvent where
  | keyboardInterrupt
  | systemExit (code : Nat)
  | caughtSignal (signum : Nat)
  | otherException (msg : String)
deriving DecidableEq, Repr

/-- How the process ends: falling cleanly off the `with` block, exiting with
a `SystemExit` status, or dying on an uncaught exception. -/
inductive ProcessOutcome where
  | cleanExit
  | exitWithCode (code : Nat)
  | uncaught (msg : String)
deriving DecidableEq, Repr

/-- What `app.run()` (line 156) does: complete normally, or raise a
`SystemExit` — as the configuration handler's `close(1)` does when a missing
key is resolved during this phase, before the try of line 158. -/
inductive RunEvent where
  | completes
  | raisesSystemExit (code : Nat)
deriving DecidableEq, Repr

/-- The `with RainMachineApp() as app:` block of lines 155 to 161 of the
source: `app.run()` runs outside any try, so a `SystemExit` it raises
propagates and sets the process exit status; `app.run_forever()` runs inside
`try ... except (KeyboardInterrupt, SystemExit, CaughtSignal): pass`, so
those three exception types are swallowed and the block ends cleanly, while
any other exception propagates uncaught. -/
def mainBlock (runEv : RunEvent) (idleEv : IdleEvent) : ProcessOutcome :=
  match runEv with
  | RunEvent.raisesSystemExit c => ProcessOutcome.exitWithCode c
  | RunEvent.completes =>
    match idleEv with
    | IdleEvent.keyboardInterrupt => ProcessOutcome.cleanExit
    | IdleEvent.systemExit _ => ProcessOutcome.cleanExit
    | IdleEvent.caughtSignal _ => ProcessOutcome.cleanExit
    | IdleEvent.otherException m => ProcessOutcome.uncaught m

/-- Merge the entries of one file section over the configuration. -/
def mergeSection (cfg : Config) (sect : String) (entries : ConfigSection) : Config :=
  entries.foldl (fun c p => configSet c sect p.1 p.2) cfg

/-- Modelled from the spec: at setup the framework merges the configuration
file over the declared defaults, section by section and key by key. -/
def mergeConfig (base fileCfg : Config) : Config :=
  fileCfg.foldl (fun c p => mergeSection c p.1 p.2) base

/-- Whether a parsed argument value counts as supplied on the command line: a
stored string was, a `store_true` boolean was when it is `True`, and the
`None` left by an omitted `store` flag was not. -/
def supplied : ConfigValue → Bool
  | ConfigValue.str _ => true
  | ConfigValue.bool b => b
  | ConfigValue.pyNone => false

/-- Apply one supplied command-line value over the configuration: every
section holding the key has it overwritten. -/
def overrideStep (cfg : Config) (key : String) (v : ConfigValue) : Config :=
  cfg.map (fun p => (p.1, if (alookup p.2 key).isSome then sectionSet p.2 key v else p.2))

/-- Modelled from the spec: `arguments_override_config = True` (line 144 of
the source) makes the framework write every supplied command-line value over
the matching configuration keys, giving command-line values precedence over
configuration-file values. -/
def applyOverrides (cfg : Config) (pargs : List (String × ConfigValue)) : Config :=
  pargs.foldl (fun c p => if supplied p.2 then overrideStep c p.1 p.2 else c) cfg

/-- The configuration that downstream reads observe: the defaults, with the
configuration file merged over them, with the supplied command-line values
written over both. -/
def appConfig (fileCfg : Config) (pargs : List (String × ConfigValue)) : Config :=
  applyOverrides (mergeConfig defaults fileCfg) pargs

/-- What starting the application produces before any idle wait: an
immediate exit (the `version` action), a parse error, or a running
application holding its merged configuration and parsed arguments. -/
inductive AppPhase where
  | exited (code : Nat) (output : String)
  | argError (msg : String)
  | running (cfg : Config) (pargs : List (String × ConfigValue))
deriving DecidableEq, Repr

/-- Modelled from the spec: starting the application parses the command line;
`--version` prints the banner and exits 0 without reading any configuration,
a parse error stops the start, and otherwise the application runs with the
merged configuration. -/
def appStart (V C : String) (fileCfg : Config) (argv : List String) : AppPhase :=
  match parseArgs V C argv with
  | ParseResult.exitVersion b => AppPhase.exited 0 b
  | ParseResult.error m => AppPhase.argError m
  | ParseResult.ok ps => AppPhase.running (appConfig fileCfg ps) ps

/-- The log levels of the colorlog handler configured at lines 124 to 130. -/
inductive LogLevel where
  | debug
  | info
  | warning
  | logError
  | critical
  | fatal
deriving DecidableEq, Repr

/-- An observable effect of a run: a log line, text printed to the console,
or the external actions (file access, controller communication, JSON
serialisation) that a backup/restore implementation would perform. -/
inductive Effect where
  | log (lvl : LogLevel) (msg : String)
  | printOut (s : String)
  | fileRead (path : String)
  | fileWrite (path : String)
  | httpRequest (host : String)
  | jsonSerialize (doc : String)
deriving DecidableEq, Repr

/-- Whether an effect leaves the process: file access, controller
communication, or JSON serialisation. -/
def Effect.isExternal : Effect → Bool
  | Effect.fileRead _ => true
  | Effect.fileWrite _ => true
  | Effect.httpRequest _ => true
  | Effect.jsonSerialize _ => true
  | _ => false

/-- The whole program (lines 148 to 161 of the source): `setup()` logs one
debug line `running setup()`; `run()` parses the arguments — `version`
prints the banner and exits 0, a parse error exits 2 — and dispatches to the
base controller, which defines no command, so nothing further happens; then
`run_forever()` idles until an event ends it.  The returned pair is the
process outcome and the trace of observable effects. -/
def appMain (V C : String) (_fileCfg : Config) (argv : List String)
    (idleEv : IdleEvent) : ProcessOutcome × List Effect :=
  let setupTrace := [Effect.log LogLevel.debug "running setup()"]
  match parseArgs V C argv with
  | ParseResult.exitVersion b =>
    (ProcessOutcome.exitWithCode 0, setupTrace ++ [Effect.printOut b])
  | ParseResult.error m =>
    (ProcessOutcome.exitWithCode 2, setupTrace ++ [Effect.printOut m])
  | ParseResult.ok _ => (mainBlock RunEvent.completes idleEv, setupTrace)

/-! ## General lemmas about the association-list operations -/

theorem alookup_append {β : Type} (l r : List (String × β)) (k : String) :
    alookup (l ++ r) k = ((alookup l k).orElse (fun _ => alookup r k)) := by
  induction l with
  | nil => simp [alookup]
  | cons p t ih =>
    by_cases h : p.1 = k <;> simp [alookup, h, ih]

theorem alookup_map_keyed {β : Type} (l : List (String × β)) (g : String → β → β)
    (k : String) :
    alookup (l.map (fun p => (p.1, g p.1 p.2))) k = (alookup l k).map (g k) := by
  induction l with
  | nil => rfl
  | cons p t ih =>
    by_cases h : p.1 = k
    · simp [alookup, h]
    · simp [alookup, h, ih]

theorem str_append_assoc (a b c : String) : a ++ b ++ c = a ++ (b ++ c) := by
  apply String.ext
  simp [String.data_append, List.append_assoc]

theorem alookup_sectionSet_self (sec : ConfigSection) (key : String) (v : ConfigValue) :
    alookup (sectionSet sec key v) key = some v := by
  unfold sectionSet
  by_cases h : (alookup sec key).isSome
  · rw [if_pos h, alookup_map_keyed sec (fun k' b => if k' = key then v else b) key]
    obtain ⟨b, hb⟩ := Option.isSome_iff_exists.mp h
    simp [hb]
  · rw [if_neg h, alookup_append]
    have : alookup sec key = Option.none := Option.not_isSome_iff_eq_none.mp h
    simp [this, alookup]

theorem alookup_sectionSet_ne (sec : ConfigSection) (key k : String) (v : ConfigValue)
    (h : key ≠ k) : alookup (sectionSet sec key v) k = alookup sec k := by
  unfold sectionSet
  by_cases hs : (alookup sec key).isSome
  · rw [if_pos hs, alookup_map_keyed sec (fun k' b => if k' = key then v else b) k]
    cases hk : alookup sec k with
    | none => rfl
    | some b =>
      have hk2 : k ≠ key := fun hh => h hh.symm
      simp [hk2]
  · rw [if_neg hs, alookup_append]
    cases hk : alookup sec k with
    | none => simp [alookup, h]
    | some b => simp

theorem alookup_configSet_isSome (cfg : Config) (sect key s : String) (v : ConfigValue)
    (h : (alookup cfg s).isSome = true) :
    (alookup (configSet cfg sect key v) s).isSome = true := by
  unfold configSet
  by_cases hc : (alookup cfg sect).isSome
  · rw [if_pos hc,
      alookup_map_keyed cfg (fun k' sec => if k' = sect then sectionSet sec key v else sec) s]
    simpa using h
  · rw [if_neg hc, alookup_append]
    obtain ⟨b, hb⟩ := Option.isSome_iff_exists.mp h
    simp [hb]

theorem alookup_mergeSection_isSome (entries : ConfigSection) (cfg : Config)
    (sect s : String) (h : (alookup cfg s).isSome = true) :
    (alookup (mergeSection cfg sect entries) s).isSome = true := by
  induction entries generalizing cfg with
  | nil => exact h
  | cons p t ih =>
    show (alookup (mergeSection (configSet cfg sect p.1 p.2) sect t) s).isSome = true
    exact ih _ (alookup_configSet_isSome cfg sect p.1 s p.2 h)

theorem alookup_mergeConfig_isSome (fileCfg base : Config) (s : String)
    (h : (alookup base s).isSome = true) :
    (alookup (mergeConfig base fileCfg) s).isSome = true := by
  induction fileCfg generalizing base with
  | nil => exact h
  | cons p t ih =>
    show (alookup (mergeConfig (mergeSection base p.1 p.2) t) s).isSome = true
    exact ih _ (alookup_mergeSection_isSome p.2 base p.1 s h)

theorem alookup_overrideStep (cfg : Config) (key : String) (v : ConfigValue) (s : String) :
    alookup (overrideStep cfg key v) s =
      (alookup cfg s).map
        (fun sec => if (alookup sec key).isSome then sectionSet sec key v else sec) :=
  alookup_map_keyed cfg (fun _ sec => if (alookup sec key).isSome then sectionSet sec key v else sec) s

theorem alookup_applyOverrides_isSome (pargs : List (String × ConfigValue)) (cfg : Config)
    (s : String) (h : (alookup cfg s).isSome = true) :
    (alookup (applyOverrides cfg pargs) s).isSome = true := by
  induction pargs generalizing cfg with
  | nil => exact h
  | cons p t ih =>
    show (alookup (applyOverrides (if supplied p.2 then overrideStep cfg p.1 p.2 else cfg) t) s).isSome = true
    apply ih
    by_cases hs : supplied p.2
    · rw [if_pos hs, alookup_overrideStep]
      simpa using h
    · rwa [if_neg hs]

theorem configLookup_overrideStep_self (cfg : Config) (k : String) (v : ConfigValue)
    (s : String) (h : (configLookup cfg s k).isSome = true) :
    configLookup (overrideStep cfg k v) s k = some v := by
  unfold configLookup at h ⊢
  rw [alookup_overrideStep]
  cases hs : alookup cfg s with
  | none => rw [hs] at h; simp at h
  | some sec =>
    rw [hs] at h
    show alookup (if (alookup sec k).isSome = true then sectionSet sec k v else sec) k = some v
    rw [if_pos h]
    exact alookup_sectionSet_self sec k v

theorem configLookup_overrideStep_ne (cfg : Config) (k' : String) (v : ConfigValue)
    (s k : String) (h : k' ≠ k) :
    configLookup (overrideStep cfg k' v) s k = configLookup cfg s k := by
  unfold configLookup
  rw [alookup_overrideStep]
  cases hs : alookup cfg s with
  | none => rfl
  | some sec =>
    show alookup (if (alookup sec k').isSome = true then sectionSet sec k' v else sec) k =
      alookup sec k
    by_cases hp : (alookup sec k').isSome
    · rw [if_pos hp]
      exact alookup_sectionSet_ne sec k' k v h
    · rw [if_neg hp]

theorem configLookup_applyOverrides_notin (pargs : List (String × ConfigValue))
    (cfg : Config) (s k : String) (h : k ∉ pargs.map Prod.fst) :
    configLookup (applyOverrides cfg pargs) s k = configLookup cfg s k := by
  induction pargs generalizing cfg with
  | nil => rfl
  | cons p t ih =>
    have hk1 : p.1 ≠ k := by
      intro hh
      exact h (by simp [hh])
    have ht : k ∉ t.map Prod.fst := fun hm => h (by simp [hm])
    show configLookup (applyOverrides (if supplied p.2 then overrideStep cfg p.1 p.2 else cfg) t) s k = _
    rw [ih _ ht]
    by_cases hs : supplied p.2
    · rw [if_pos hs, configLookup_overrideStep_ne cfg p.1 p.2 s k hk1]
    · rw [if_neg hs]

theorem configLookup_applyOverrides_supplied (pargs : List (String × ConfigValue)) :
    ∀ cfg s k v, (pargs.map Prod.fst).Nodup → alookup pargs k = some v →
      supplied v = true → (configLookup cfg s k).isSome = true →
      configLookup (applyOverrides cfg pargs) s k = some v := by
  induction pargs with
  | nil => intro cfg s k v _ hk; simp [alookup] at hk
  | cons p t ih =>
    intro cfg s k v hnd hk hv hcfg
    have hstep : applyOverrides cfg (p :: t) =
        applyOverrides (if supplied p.2 then overrideStep cfg p.1 p.2 else cfg) t := rfl
    rw [hstep]
    by_cases h1 : p.1 = k
    · have hv1 : p.2 = v := by
        rw [alookup, if_pos h1] at hk
        exact Option.some.inj hk
      subst hv1; subst h1
      rw [if_pos hv]
      have hfixed : configLookup (overrideStep cfg p.1 p.2) s p.1 = some p.2 :=
        configLookup_overrideStep_self cfg p.1 p.2 s hcfg
      have hnotin : p.1 ∉ t.map Prod.fst := by
        simp only [List.map_cons, List.nodup_cons] at hnd
        exact hnd.1
      rw [configLookup_applyOverrides_notin t _ s p.1 hnotin]
      exact hfixed
    · have hk' : alookup t k = some v := by
        rw [alookup, if_neg h1] at hk
        exact hk
      have hnd' : (t.map Prod.fst).Nodup := by
        simp only [List.map_cons, List.nodup_cons] at hnd
        exact hnd.2
      by_cases hs : supplied p.2
      · rw [if_pos hs]
        apply ih _ s k v hnd' hk' hv
        rw [configLookup_overrideStep_ne cfg p.1 p.2 s k h1]
        exact hcfg
      · rw [if_neg hs]
        exact ih _ s k v hnd' hk' hv hcfg

/-! ## The claims -/

/-- C5: for every run that reaches the post-startup idle wait, each of the
three termination events — a keyboard interrupt, a system exit, or a caught
OS signal — is swallowed by the except clause of lines 158 to 161, and the
process leaves the `with` block cleanly, with no error and no further
action. -/
theorem idle_wait_termination_clean (code signum : Nat) :
    mainBlock RunEvent.completes IdleEvent.keyboardInterrupt = ProcessOutcome.cleanExit ∧
    mainBlock RunEvent.completes (IdleEvent.systemExit code) = ProcessOutcome.cleanExit ∧
    mainBlock RunEvent.completes (IdleEvent.caughtSignal signum) = ProcessOutcome.cleanExit :=
  ⟨rfl, rfl, rfl⟩

/-- C8: the configuration reader's fatal-log-and-exit path is triggered
exactly by the `configparser` errors: the try/except of
`RainMachineConfigHandler.get` turns a `configparser.Error` into the fatal
log and `close(1)`, returns the value otherwise, and lets an exception of
any other type propagate to the caller unhandled. -/
theorem config_error_handling_exact :
    (∀ v, handleGet (RawGetResult.val v) = HandledResult.ok v) ∧
    (∀ e, handleGet (RawGetResult.cpError e) =
      HandledResult.fatalExit ("Missing configuration setting: " ++ cpErrorMsg e) 1) ∧
    (∀ m, handleGet (RawGetResult.otherError m) = HandledResult.raised m) ∧
    (∀ r, (∃ msg code, handleGet r = HandledResult.fatalExit msg code) ↔
      ∃ e, r = RawGetResult.cpError e) := by
  refine ⟨fun v => rfl, fun e => rfl, fun m => rfl, fun r => ?_⟩
  cases r with
  | val v => simp [handleGet]
  | cpError e => simp [handleGet]
  | otherError m => simp [handleGet]

/-- C9: a `SystemExit` raised while the program is in the idle wait — in
particular the status-1 exit initiated by the configuration handler's
`close(1)` — is caught and suppressed by the blanket except clause, so the
process ends cleanly rather than with the raised status; only a `SystemExit`
raised before the idle wait, during `app.run()`, makes the process exit with
status 1. -/
theorem system_exit_suppressed_in_idle (ev : IdleEvent) :
    mainBlock RunEvent.completes (IdleEvent.systemExit 1) = ProcessOutcome.cleanExit ∧
    mainBlock RunEvent.completes (IdleEvent.systemExit 1) ≠ ProcessOutcome.exitWithCode 1 ∧
    mainBlock (RunEvent.raisesSystemExit 1) ev = ProcessOutcome.exitWithCode 1 :=
  ⟨rfl, by decide, rfl⟩

/-- C2: whenever a logical setting has both a configuration-file value and a
supplied command-line value in the same invocation, every downstream
configuration read of that setting observes the command-line value: the
command line takes precedence over the configuration file. -/
theorem cli_overrides_config_value (fileCfg : Config) (pargs : List (String × ConfigValue))
    (s k : String) (v : ConfigValue)
    (hnd : (pargs.map Prod.fst).Nodup)
    (hk : alookup pargs k = some v)
    (hv : supplied v = true)
    (hcfg : (configLookup (mergeConfig defaults fileCfg) s k).isSome = true) :
    configLookup (appConfig fileCfg pargs) s k = some v :=
  configLookup_applyOverrides_supplied pargs (mergeConfig defaults fileCfg) s k v hnd hk hv hcfg

/-- Witness for C2: the configuration file sets `host` to `filehost`, the
command line sets it to `clihost`, and the downstream read observes
`clihost`. -/
theorem cli_overrides_config_value_witness :
    (([("host", ConfigValue.str "clihost")].map Prod.fst).Nodup) ∧
    alookup [("host", ConfigValue.str "clihost")] "host" = some (ConfigValue.str "clihost") ∧
    supplied (ConfigValue.str "clihost") = true ∧
    (configLookup
      (mergeConfig defaults [("rainmachine", [("host", ConfigValue.str "filehost")])])
      "rainmachine" "host").isSome = true ∧
    configLookup
      (appConfig [("rainmachine", [("host", ConfigValue.str "filehost")])]
        [("host", ConfigValue.str "clihost")])
      "rainmachine" "host" = some (ConfigValue.str "clihost") :=
  ⟨by decide, by decide, by decide, by decide,
    cli_overrides_config_value [("rainmachine", [("host", ConfigValue.str "filehost")])]
      [("host", ConfigValue.str "clihost")] "rainmachine" "host"
      (ConfigValue.str "clihost") (by decide) (by decide) (by decide) (by decide)⟩

/-- C1: for every invocation in which a required configuration key is
resolved through the handler but absent from the application configuration,
`RainMachineConfigHandler.get` logs a fatal message naming the missing key
and closes the application with exit status 1; it never returns a value. -/
theorem missing_key_fatal_exit (fileCfg : Config) (pargs : List (String × ConfigValue))
    (key : String)
    (h : configLookup (appConfig fileCfg pargs) "rainmachine" key = Option.none) :
    RainMachineConfigHandler_get (appConfig fileCfg pargs) "rainmachine" key =
      GetOutcome.fatalExit
        ("Missing configuration setting: No option " ++ (key ++ " in section: rainmachine")) 1 ∧
    ∀ v, RainMachineConfigHandler_get (appConfig fileCfg pargs) "rainmachine" key ≠
      GetOutcome.ok v := by
  have hsec : (alookup (appConfig fileCfg pargs) "rainmachine").isSome = true := by
    apply alookup_applyOverrides_isSome
    apply alookup_mergeConfig_isSome
    decide
  obtain ⟨sec, hs⟩ := Option.isSome_iff_exists.mp hsec
  have hkey : alookup sec key = Option.none := by
    unfold configLookup at h
    rw [hs] at h
    exact h
  have hget : RainMachineConfigHandler_get (appConfig fileCfg pargs) "rainmachine" key =
      GetOutcome.fatalExit
        ("Missing configuration setting: " ++ cpErrorMsg (CPError.noOption key "rainmachine")) 1 := by
    simp only [RainMachineConfigHandler_get, rawGet, hs, hkey]
  have hmsg : ("Missing configuration setting: " : String) ++
      cpErrorMsg (CPError.noOption key "rainmachine") =
      "Missing configuration setting: No option " ++ (key ++ " in section: rainmachine") := by
    show ("Missing configuration setting: " : String) ++
      ("No option " ++ (key ++ (" in section: " ++ "rainmachine"))) = _
    rw [← str_append_assoc "Missing configuration setting: " "No option "]
    rfl
  constructor
  · rw [hget, hmsg]
  · intro v hcontra
    rw [hget] at hcontra
    exact GetOutcome.noConfusion hcontra

/-- Witness for C1: with an empty configuration file and no command-line
values, the key `host` is absent and resolving it is fatal with exit
status 1. -/
theorem missing_key_fatal_exit_witness :
    configLookup (appConfig [] []) "rainmachine" "host" = Option.none ∧
    RainMachineConfigHandler_get (appConfig [] []) "rainmachine" "host" =
      GetOutcome.fatalExit
        ("Missing configuration setting: No option " ++
          ("host" ++ " in section: rainmachine")) 1 :=
  ⟨by decide, (missing_key_fatal_exit [] [] "host" (by decide)).1⟩

theorem findSpec_isSome_iff (tok : String) :
    (findSpec tok).isSome = true ↔ tok ∈ allFlags := by
  constructor
  · intro h
    obtain ⟨a, ha⟩ := Option.isSome_iff_exists.mp h
    have ha2 : arguments.find? (fun a => decide (tok ∈ a.flags)) = some a := ha
    have hmem : a ∈ arguments := List.mem_of_find?_eq_some ha2
    have hp : tok ∈ a.flags := by
      have hp0 := List.find?_some ha2
      simpa using hp0
    fin_cases hmem <;> simp_all [allFlags] <;> tauto
  · intro h
    fin_cases h <;> decide

/-- C4: the argument parser recognizes exactly the fixed flag set of the
source's argument table — `--host`/`--rainmachine` stored under `host`,
`-u`/`--user` under `user`, `-p`/`--password` under `pass`, the booleans
`-b`/`--backup` and `-r`/`--restore`, `-f`/`--file` under `file`, and
`-v`/`--version` which prints the banner and exits — and accepts no other
option. -/
theorem flag_set_exact (V C : String) :
    (∀ tok, (findSpec tok).isSome = true ↔ tok ∈ allFlags) ∧
    parsedValue (parseArgs V C ["--host", "h1"]) "host" = some (ConfigValue.str "h1") ∧
    parsedValue (parseArgs V C ["--rainmachine", "h2"]) "host" = some (ConfigValue.str "h2") ∧
    parsedValue (parseArgs V C ["-u", "u1"]) "user" = some (ConfigValue.str "u1") ∧
    parsedValue (parseArgs V C ["--user", "u2"]) "user" = some (ConfigValue.str "u2") ∧
    parsedValue (parseArgs V C ["-p", "s1"]) "pass" = some (ConfigValue.str "s1") ∧
    parsedValue (parseArgs V C ["--password", "s2"]) "pass" = some (ConfigValue.str "s2") ∧
    parsedValue (parseArgs V C ["-b"]) "backup" = some (ConfigValue.bool true) ∧
    parsedValue (parseArgs V C ["--backup"]) "backup" = some (ConfigValue.bool true) ∧
    parsedValue (parseArgs V C ["-r"]) "restore" = some (ConfigValue.bool true) ∧
    parsedValue (parseArgs V C ["--restore"]) "restore" = some (ConfigValue.bool true) ∧
    parsedValue (parseArgs V C ["-f", "f1"]) "file" = some (ConfigValue.str "f1") ∧
    parsedValue (parseArgs V C ["--file", "f2"]) "file" = some (ConfigValue.str "f2") ∧
    parseArgs V C ["-v"] = ParseResult.exitVersion (BANNER V C) ∧
    parseArgs V C ["--version"] = ParseResult.exitVersion (BANNER V C) :=
  ⟨findSpec_isSome_iff, rfl, rfl, rfl, rfl, rfl, rfl, rfl, rfl, rfl, rfl, rfl, rfl,
    rfl, rfl⟩

theorem parseLoop_exitVersion_banner (V C : String) :
    ∀ (argv : List String) (pending : Option String) (ps : List (String × ConfigValue))
      (b : String), parseLoop V C argv pending ps = ParseResult.exitVersion b →
      b = BANNER V C := by
  intro argv
  induction argv with
  | nil =>
    intro pending ps b h
    cases pending <;> simp [parseLoop] at h
  | cons tok rest ih =>
    intro pending ps b h
    cases pending with
    | some d =>
      by_cases hs : dashPrefixed tok
      · simp [parseLoop, hs] at h
      · rw [parseLoop, if_neg (by simp [hs])] at h
        exact ih _ _ _ h
    | none =>
      rw [parseLoop] at h
      cases hf : findSpec tok with
      | none =>
        rw [hf] at h
        exact ParseResult.noConfusion h
      | some a =>
        rw [hf] at h
        obtain ⟨fl, ac, de⟩ := a
        cases ac with
        | version => exact (ParseResult.exitVersion.inj h).symm
        | store => exact ih _ _ _ h
        | store_true =>
          cases de with
          | none => exact ih _ _ _ h
          | some d => exact ih _ _ _ h

/-- C3: for every invocation whose parse reaches `-v`/`--version`, the
program prints the banner — which contains the version string — and exits
with status 0, and it does so without reading any configuration: the outcome
is the same whatever the configuration file holds. -/
theorem version_flag_banner_exit (V C : String) (fileCfgA fileCfgB : Config)
    (argv : List String) (b : String)
    (h : parseArgs V C argv = ParseResult.exitVersion b) :
    appStart V C fileCfgA argv = AppPhase.exited 0 (BANNER V C) ∧
    appStart V C fileCfgA argv = appStart V C fileCfgB argv ∧
    (∃ p q, BANNER V C = p ++ (V ++ q)) := by
  have hb : b = BANNER V C :=
    parseLoop_exitVersion_banner V C argv Option.none initPargs b h
  subst hb
  refine ⟨?_, ?_, "\nrainmachine v", "\n" ++ (C ++ "\n"), rfl⟩
  · unfold appStart
    rw [h]
  · unfold appStart
    rw [h]

/-- Witness for C3: invoking with exactly `-v` prints the banner and exits 0,
with the same outcome over two different configuration files. -/
theorem version_flag_banner_exit_witness :
    appStart "0.5.0" "Copyright 2015" [] ["-v"] =
      AppPhase.exited 0 (BANNER "0.5.0" "Copyright 2015") ∧
    appStart "0.5.0" "Copyright 2015" [] ["-v"] =
      appStart "0.5.0" "Copyright 2015" [("other", [("k", ConfigValue.str "w")])] ["-v"] ∧
    (∃ p q, BANNER "0.5.0" "Copyright 2015" = p ++ ("0.5.0" ++ q)) :=
  version_flag_banner_exit "0.5.0" "Copyright 2015" []
    [("other", [("k", ConfigValue.str "w")])] ["-v"]
    (BANNER "0.5.0" "Copyright 2015") rfl

theorem alookup_pargsSet_ne (ps : List (String × ConfigValue)) (d k : String)
    (v : ConfigValue) (h : d ≠ k) : alookup (pargsSet ps d v) k = alookup ps k := by
  unfold pargsSet
  rw [alookup_map_keyed ps (fun k' b => if k' = d then v else b) k]
  have hk2 : k ≠ d := fun hh => h hh.symm
  cases hk : alookup ps k with
  | none => rfl
  | some b => simp [hk2]

theorem findSpec_dest_file (tok : String) (a : ArgSpec) (h : findSpec tok = some a)
    (hd : a.dest = some "file") :
    a.action = ArgAction.store ∧ (tok = "-f" ∨ tok = "--file") := by
  have h2 : arguments.find? (fun x => decide (tok ∈ x.flags)) = some a := h
  have hmem : a ∈ arguments := List.mem_of_find?_eq_some h2
  have hp : tok ∈ a.flags := by
    have hp0 := List.find?_some h2
    simpa using hp0
  fin_cases hmem <;> simp_all

theorem parseLoop_file_unset (V C : String) :
    ∀ (argv : List String) (pending : Option String) (ps0 ps : List (String × ConfigValue)),
      "-f" ∉ argv → "--file" ∉ argv → pending ≠ some "file" →
      parseLoop V C argv pending ps0 = ParseResult.ok ps →
      alookup ps "file" = alookup ps0 "file" := by
  intro argv
  induction argv with
  | nil =>
    intro pending ps0 ps _ _ _ h
    cases pending with
    | some d => exact ParseResult.noConfusion h
    | none =>
      have hps : ps0 = ps := ParseResult.ok.inj h
      rw [← hps]
  | cons tok rest ih =>
    intro pending ps0 ps h1 h2 hp h
    have h1r : "-f" ∉ rest := fun hm => h1 (List.mem_cons_of_mem _ hm)
    have h2r : "--file" ∉ rest := fun hm => h2 (List.mem_cons_of_mem _ hm)
    have h1t : tok ≠ "-f" := fun he => h1 (he ▸ List.mem_cons_self _ _)
    have h2t : tok ≠ "--file" := fun he => h2 (he ▸ List.mem_cons_self _ _)
    cases pending with
    | some d =>
      by_cases hs : dashPrefixed tok
      · rw [parseLoop, if_pos hs] at h
        exact ParseResult.noConfusion h
      · rw [parseLoop, if_neg (by simp [hs])] at h
        have hd : d ≠ "file" := fun hh => hp (by rw [hh])
        rw [ih Option.none _ ps h1r h2r (by simp) h]
        exact alookup_pargsSet_ne ps0 d "file" (ConfigValue.str tok) hd
    | none =>
      rw [parseLoop] at h
      cases hf : findSpec tok with
      | none =>
        rw [hf] at h
        exact ParseResult.noConfusion h
      | some a =>
        rw [hf] at h
        obtain ⟨fl, ac, de⟩ := a
        cases ac with
        | version => exact ParseResult.noConfusion h
        | store =>
          have hde : de ≠ some "file" := by
            intro hh
            rcases (findSpec_dest_file tok ⟨fl, ArgAction.store, de⟩ hf hh).2 with h' | h'
            · exact h1t h'
            · exact h2t h'
          exact ih de ps0 ps h1r h2r hde h
        | store_true =>
          cases de with
          | none => exact ih Option.none ps0 ps h1r h2r (by simp) h
          | some d =>
            have hd : d ≠ "file" := by
              intro hh
              have hact :=
                (findSpec_dest_file tok ⟨fl, ArgAction.store_true, some d⟩ hf (by rw [hh])).1
              exact ArgAction.noConfusion hact
            rw [ih Option.none _ ps h1r h2r (by simp) h]
            exact alookup_pargsSet_ne ps0 d "file" (ConfigValue.bool true) hd

/-- C10: for every invocation that omits `-f`/`--file`, the parsed value of
the `file` setting is `None`: no default value is declared for the flag, so
the defaulting promised by its help text is not implemented. -/
theorem omitted_file_flag_is_none (V C : String) (argv : List String)
    (ps : List (String × ConfigValue))
    (h1 : "-f" ∉ argv) (h2 : "--file" ∉ argv)
    (h : parseArgs V C argv = ParseResult.ok ps) :
    alookup ps "file" = some ConfigValue.pyNone := by
  rw [parseLoop_file_unset V C argv Option.none initPargs ps h1 h2 (by simp) h]
  decide

/-- Witness for C10: parsing `-b` alone leaves `file` bound to `None`. -/
theorem omitted_file_flag_is_none_witness :
    ("-f" ∉ (["-b"] : List String)) ∧ ("--file" ∉ (["-b"] : List String)) ∧
    alookup [("host", ConfigValue.pyNone), ("user", ConfigValue.pyNone),
      ("pass", ConfigValue.pyNone), ("backup", ConfigValue.bool true),
      ("restore", ConfigValue.bool false), ("file", ConfigValue.pyNone)] "file" =
      some ConfigValue.pyNone :=
  ⟨by decide, by decide,
    omitted_file_flag_is_none "0.5.0" "Copyright 2015" ["-b"]
      [("host", ConfigValue.pyNone), ("user", ConfigValue.pyNone),
       ("pass", ConfigValue.pyNone), ("backup", ConfigValue.bool true),
       ("restore", ConfigValue.bool false), ("file", ConfigValue.pyNone)]
      (by decide) (by decide) rfl⟩

/-- C6: supplying `-b`/`--backup` or `-r`/`--restore` performs no backup or
restore action and changes nothing observable beyond the parsed flag values:
the run emits no file access, no controller communication and no JSON
serialisation, and every successfully parsed invocation produces the same
outcome and the same effect trace — one debug log line — whatever flags were
supplied. -/
theorem backup_restore_flags_noop (V C : String) (fileCfg : Config)
    (argv : List String) (ev : IdleEvent) :
    ((appMain V C fileCfg argv ev).2.all (fun e => !e.isExternal)) = true ∧
    (∀ ps, parseArgs V C argv = ParseResult.ok ps →
      appMain V C fileCfg argv ev =
        (mainBlock RunEvent.completes ev, [Effect.log LogLevel.debug "running setup()"])) := by
  constructor
  · cases hp : parseArgs V C argv <;> simp [appMain, hp, Effect.isExternal]
  · intro ps h
    simp [appMain, h]

end RainMachine
